import Mathlib

/-!
Shallow embedding of the voxel engine core (gdextension/src) used to check
the specification claims: the per-chunk voxel storage with its uniform-chunk
optimization (core/voxel_data), the terrain generator's height cache and
per-cell classification (systems/terrain_generator), the greedy mesher's
mask merge (systems/chunk_mesh_builder), the thread pool's submission gate
(util/thread_pool), and the world streamer's mesh-installation and
voxel-query paths (voxel_world).

Machine integers are modelled as unbounded integers (the quantities involved
stay far from the int32 range in every claim, except where a cast wraps, in
which case the wrap is written out explicitly as a remainder mod 2^64);
C++ floats are modelled as exact rationals.

The file is organized as definitions first (the embedding of the source),
then the theorems settling the claims together with their helper lemmas.
-/

namespace VoxelProj

/-! ## Definitions -/

/-! ### Voxel storage (core/voxel_data, core/voxel_types) -/

/-- Block type ids from core/voxel_types.h (an 8-bit id in the source). -/
abbrev VoxelTypeID := Nat

def AIR : VoxelTypeID := 0
def STONE : VoxelTypeID := 1
def DIRT : VoxelTypeID := 2
def GRASS : VoxelTypeID := 3
def SAND : VoxelTypeID := 4
def WATER : VoxelTypeID := 5
def GRAVEL : VoxelTypeID := 6

def CHUNK_SIZE_XZ : ℤ := 16

/-- State of core/voxel_data: either uniform (no buffer allocated) or a
dense buffer of one byte per cell.  The source also stores a field
total_voxels, which every constructor and mutator keeps equal to
CHUNK_SIZE_XZ * CHUNK_SIZE_XZ * chunk_size_y; it is modelled as the derived
function VoxelData.total_voxels below. -/
structure VoxelData where
  chunk_size_y : ℤ
  is_uniform : Bool
  uniform_value : VoxelTypeID
  data : Option (List VoxelTypeID)
deriving DecidableEq

namespace VoxelData

def total_voxels (s : VoxelData) : ℤ :=
  CHUNK_SIZE_XZ * CHUNK_SIZE_XZ * s.chunk_size_y

def get_index (s : VoxelData) (x y z : ℤ) : ℤ :=
  x + y * CHUNK_SIZE_XZ + z * CHUNK_SIZE_XZ * s.chunk_size_y

/-- The constructor VoxelData(int32_t chunk_y): uniform air, no buffer. -/
def make (chunk_y : ℤ) : VoxelData :=
  { chunk_size_y := chunk_y, is_uniform := true, uniform_value := AIR, data := none }

/-- The bounds test written inline in VoxelData::set_voxel and
VoxelData::_get_voxel:
x < 0 || x >= CHUNK_SIZE_XZ || y < 0 || y >= chunk_size_y || z < 0 || z >= CHUNK_SIZE_XZ. -/
def oob (s : VoxelData) (x y z : ℤ) : Prop :=
  x < 0 ∨ CHUNK_SIZE_XZ ≤ x ∨ y < 0 ∨ s.chunk_size_y ≤ y ∨ z < 0 ∨ CHUNK_SIZE_XZ ≤ z

instance (s : VoxelData) (x y z : ℤ) : Decidable (s.oob x y z) := by
  unfold oob; infer_instance

/-- The inline VoxelData::get_voxel (voxel_data.h, lines 53-59).  It performs
NO bounds check: uniform storage returns the uniform value for any
coordinates; dense storage reads data[get_index(x,y,z)].  In the source a
dense read at an index outside the allocated buffer (or through a null
buffer) is undefined behavior; the model returns an arbitrary default 0
there, and no theorem below depends on that arbitrary choice. -/
def get_voxel (s : VoxelData) (x y z : ℤ) : VoxelTypeID :=
  if s.is_uniform then s.uniform_value
  else
    match s.data with
    | some buf => buf.getD (s.get_index x y z).toNat 0
    | none => 0

/-- VoxelData::set_voxel (voxel_data.cpp, lines 41-66): bounds check, then
the uniform same-value no-op, then (if still uniform) promotion to a dense
buffer broadcasting the old uniform value (memset of one byte per cell),
then the write.  In the source, the dense write with a null buffer is
undefined behavior (unreachable: the class keeps a buffer allocated whenever
is_uniform is false); the model writes into an empty list there. -/
def set_voxel (s : VoxelData) (x y z : ℤ) (type : VoxelTypeID) : VoxelData :=
  if s.oob x y z then s
  else if s.is_uniform = true ∧ type = s.uniform_value then s
  else
    let buf :=
      if s.is_uniform then List.replicate s.total_voxels.toNat s.uniform_value
      else s.data.getD []
    { s with is_uniform := false,
             data := some (buf.set (s.get_index x y z).toNat type) }

/-- VoxelData::fill: unconditionally reset to uniform representation. -/
def fill (s : VoxelData) (type : VoxelTypeID) : VoxelData :=
  { s with is_uniform := true, uniform_value := type, data := none }

/-- VoxelData::check_and_optimize_uniform (voxel_data.cpp, lines 74-98).
The source loop compares data[i] to data[0] for i = 1 .. total_voxels-1;
checking every element against the first (index 0 compares trivially equal
to itself) is the same test. -/
def check_and_optimize_uniform (s : VoxelData) : Bool × VoxelData :=
  if s.is_uniform then (true, s)
  else
    match s.data with
    | none => (true, { s with is_uniform := true, uniform_value := AIR })
    | some buf =>
      let first_value := buf.getD 0 0
      if buf.all (fun v => v = first_value) then
        (true, { s with is_uniform := true, uniform_value := first_value, data := none })
      else (false, s)

/-- The Godot-exposed VoxelData::_get_voxel (voxel_data.cpp, lines 108-113):
the bounds-checked read, returning AIR out of range. -/
def get_voxel_checked (s : VoxelData) (x y z : ℤ) : VoxelTypeID :=
  if s.oob x y z then AIR else s.get_voxel x y z

/-- In-bounds coordinate predicate (negation of the source's bounds test). -/
def inB (s : VoxelData) (x y z : ℤ) : Prop :=
  0 ≤ x ∧ x < CHUNK_SIZE_XZ ∧ 0 ≤ y ∧ y < s.chunk_size_y ∧ 0 ≤ z ∧ z < CHUNK_SIZE_XZ

instance (s : VoxelData) (x y z : ℤ) : Decidable (s.inB x y z) := by
  unfold inB; infer_instance

/-- Class invariant maintained by every member function of VoxelData: the
height is positive (it is 32, 16 or 64 in the running system), a uniform
state holds no buffer, and a dense state holds a buffer of exactly
total_voxels cells. -/
def WF (s : VoxelData) : Prop :=
  0 < s.chunk_size_y ∧
    ((s.is_uniform = true ∧ s.data = none) ∨
      (s.is_uniform = false ∧ s.data.map List.length = some s.total_voxels.toNat))

instance (s : VoxelData) : Decidable (s.WF) := by
  unfold WF; infer_instance

end VoxelData

/-- Every in-bounds cell of the storage holds one common value. -/
def all_cells_eq (s : VoxelData) : Prop :=
  ∀ x y z x2 y2 z2 : ℤ, s.inB x y z → s.inB x2 y2 z2 →
    s.get_voxel x y z = s.get_voxel x2 y2 z2

/-- Run a sequence of set_voxel calls against a storage. -/
def applyOps (s : VoxelData) : List (ℤ × ℤ × ℤ × VoxelTypeID) → VoxelData
  | [] => s
  | op :: rest => applyOps (s.set_voxel op.1 op.2.1 op.2.2.1 op.2.2.2) rest

/-! ### Thread pool (util/thread_pool) -/

/-- Job categories from util/thread_pool.h. -/
inductive JobType
  | GENERATE_TERRAIN
  | BUILD_MESH
  | BUILD_REGION_MESH
deriving DecidableEq

/-- A queued job: category tag, an opaque task id standing for the task
closure, and a priority. -/
structure Job where
  jtype : JobType
  task : Nat
  priority : ℤ
deriving DecidableEq

/-- The scheduler state touched by ThreadPool::submit_job: the stop flag,
the pending-job counter, the configured maximum, and the queue contents.
The source queue is a priority queue; submission only inserts, so the queue
is modelled as the list of jobs it holds (insertion order; the drain order
is not at issue in the claims). -/
structure ThreadPoolState where
  should_stop : Bool
  pending_jobs : ℤ
  max_pending_jobs : ℤ
  job_queue : List Job
deriving DecidableEq

/-- The constructor ThreadPool(): not stopped, no pending jobs, maximum
pending count 1000. -/
def ThreadPoolState.make : ThreadPoolState :=
  { should_stop := false, pending_jobs := 0, max_pending_jobs := 1000, job_queue := [] }

/-- ThreadPool::submit_job (thread_pool.cpp, lines 86-103): reject when
stopped or at capacity; otherwise enqueue and bump the pending counter. -/
def ThreadPoolState.submit_job (s : ThreadPoolState) (j : Job) : Bool × ThreadPoolState :=
  if s.should_stop then (false, s)
  else if s.max_pending_jobs ≤ s.pending_jobs then (false, s)
  else
    (true, { s with job_queue := s.job_queue ++ [j],
                    pending_jobs := s.pending_jobs + 1 })

/-! ### World streamer (voxel_world.cpp) -/

/-- Chunk lifecycle states from core/chunk.h. -/
inductive ChunkSt
  | INACTIVE
  | GENERATING
  | MESHING
  | ACTIVE
  | UNLOADING
deriving DecidableEq

/-- The per-chunk data the streamer claims touch: lifecycle state, the
recorded mesh (none models a null Ref), and the owned voxel storage.
Chunks inserted into the world table are always initialized first
(VoxelWorld::generate_chunk_async calls Chunk::initialize before the
insertion), so the storage is present. -/
structure ChunkM where
  st : ChunkSt
  mesh : Option Nat
  vd : VoxelData
deriving DecidableEq

/-- Chunk grid coordinate. -/
abbrev Coord := ℤ × ℤ × ℤ

/-- The two tables of VoxelWorld: the chunk table (single source of truth
for what is loaded) and the render-handle table; render handles are
modelled by the coordinates that currently own one. -/
structure WorldModel where
  chunks : List (Coord × ChunkM)
  chunk_mesh_instances : List Coord
deriving DecidableEq

namespace WorldModel

/-- chunks.find(pos) on the chunk table. -/
def findChunk (w : WorldModel) (pos : Coord) : Option ChunkM :=
  (w.chunks.find? (fun e => decide (e.1 = pos))).map Prod.snd

/-- Replace the chunk entry at a coordinate (mutation through the iterator
returned by find in the source). -/
def updateChunk (w : WorldModel) (pos : Coord) (c : ChunkM) : WorldModel :=
  { w with chunks := w.chunks.map (fun e => if e.1 = pos then (e.1, c) else e) }

/-- VoxelWorld::remove_chunk_mesh_instance (voxel_world.cpp, lines 233-241):
erase the render handle at pos if one exists (map keys are unique, so the
erase of the found entry removes every entry with that key). -/
def remove_chunk_mesh_instance (w : WorldModel) (pos : Coord) : WorldModel :=
  { w with chunk_mesh_instances := w.chunk_mesh_instances.filter (fun c => decide (¬ c = pos)) }

/-- VoxelWorld::create_chunk_mesh_instance (voxel_world.cpp, lines 201-231):
the mesh-installation step.  A null mesh returns immediately; a coordinate
no longer in the chunk table returns immediately; otherwise the old render
handle is removed, a new one is created, and the chunk records the mesh and
becomes ACTIVE. -/
def create_chunk_mesh_instance (w : WorldModel) (pos : Coord) (mesh : Option Nat) : WorldModel :=
  if mesh = none then w
  else
    match w.findChunk pos with
    | none => w
    | some ch =>
      let w1 := w.remove_chunk_mesh_instance pos
      let w2 := { w1 with chunk_mesh_instances := w1.chunk_mesh_instances ++ [pos] }
      w2.updateChunk pos { ch with mesh := mesh, st := ChunkSt.ACTIVE }

end WorldModel

/-- A world state used as the concrete input of several claims: one chunk
at the origin, still generating, holding a fresh 16-high storage, and no
render handles. -/
def w0 : WorldModel :=
  { chunks := [(((0 : ℤ), (0 : ℤ), (0 : ℤ)), ⟨ChunkSt.GENERATING, none, VoxelData.make 16⟩)],
    chunk_mesh_instances := [] }

/-- Truncation toward zero of a rational, the behavior of the C++ cast
static_cast<int32_t>(float). -/
def ratTrunc (q : ℚ) : ℤ := Int.tdiv q.num (q.den : ℤ)

/-- get_chunk_height_for_y (voxel_data.h, lines 84-92): zone-dependent
chunk height. -/
def get_chunk_height_for_y (world_y : ℤ) : ℤ :=
  if world_y < -64 then 32 else if world_y < 180 then 16 else 64

/-- world_y_to_chunk_y (voxel_data.h, lines 95-98); C++ integer division
truncates toward zero. -/
def world_y_to_chunk_y (world_y : ℤ) : ℤ :=
  Int.tdiv world_y (get_chunk_height_for_y world_y)

/-- VoxelWorld::world_to_chunk_pos (voxel_world.cpp, lines 243-249): floor
division of the horizontal components by the chunk width, zone-dependent
truncating division of the (truncated) vertical component. -/
def world_to_chunk_pos (p : ℚ × ℚ × ℚ) : Coord :=
  (⌊p.1 / (16 : ℚ)⌋, world_y_to_chunk_y (ratTrunc p.2.1), ⌊p.2.2 / (16 : ℚ)⌋)

/-- VoxelWorld::get_voxel_at (voxel_world.cpp, lines 298-311): resolve the
containing chunk; absent chunk reads as air, otherwise read the chunk's
storage at the remainder coordinates (C++ % truncates toward zero).  The
method is const in the source: it performs no mutation of either table,
which the model reflects by being a pure function of the world. -/
def get_voxel_at (w : WorldModel) (p : ℚ × ℚ × ℚ) : VoxelTypeID :=
  match w.findChunk (world_to_chunk_pos p) with
  | none => AIR
  | some ch =>
    let local_x := Int.tmod (ratTrunc p.1) CHUNK_SIZE_XZ
    let local_y := Int.tmod (ratTrunc p.2.1) ch.vd.chunk_size_y
    let local_z := Int.tmod (ratTrunc p.2.2) CHUNK_SIZE_XZ
    ch.vd.get_voxel local_x local_y local_z

/-! ### Terrain generator (systems/terrain_generator) -/

/-- Generation parameters from terrain_generator.h.  Heights and thresholds
are C++ floats in the source, modelled as exact rationals; the noise seed
and frequency only configure the opaque noise primitive and are absorbed
into the noise function argument below. -/
structure TerrainParams where
  base_height : ℤ := 64
  max_height_variation : ℤ := 24
  mountain_threshold : ℚ := 3 / 5
  beach_threshold : ℚ := -3 / 10
  water_level : ℚ := 64

def params_default : TerrainParams := {}

/-- TerrainGenerator::make_cache_key (terrain_generator.h, lines 39-41):
(static_cast<uint64_t>(wx) << 32) | static_cast<uint64_t>(wz).
The int32 -> uint64 cast sign-extends, which is the remainder of the value
mod 2^64; the uint64 shift discards bits beyond 2^64. -/
def make_cache_key (wx wz : ℤ) : ℕ :=
  Nat.lor (((wx % 2 ^ 64).toNat <<< 32) % 2 ^ 64) (wz % 2 ^ 64).toNat

/-- TerrainGenerator::get_height_at (terrain_generator.cpp, lines 43-66):
look the packed key up in the height cache; on a miss compute
base_height + noise2d(wx, wz) * max_height_variation and store it.  The
unordered_map cache is modelled as an association list keyed by the packed
key; the noise primitive is an explicit function argument. -/
def get_height_at (noise2d : ℤ → ℤ → ℚ) (p : TerrainParams)
    (cache : List (ℕ × ℚ)) (wx wz : ℤ) : ℚ × List (ℕ × ℚ) :=
  let key := make_cache_key wx wz
  match cache.lookup key with
  | some height => (height, cache)
  | none =>
    let height := (p.base_height : ℚ) + noise2d wx wz * (p.max_height_variation : ℚ)
    (height, (key, height) :: cache)

/-- TerrainGenerator::get_surface_block (terrain_generator.cpp, lines
68-89): the fixed surface decision table. -/
def get_surface_block (p : TerrainParams) (height noise_value : ℚ) : VoxelTypeID :=
  if p.mountain_threshold < noise_value then
    if ((p.base_height + 15 : ℤ) : ℚ) < height then STONE else GRAVEL
  else if noise_value < p.beach_threshold then SAND
  else if p.water_level < height then GRASS
  else SAND

/-- The per-cell classification in the body of TerrainGenerator::
generate_chunk's y loop (terrain_generator.cpp, lines 143-166), as a
function of the cell's world y, the column height and the column noise:
the value the cell holds after population (cells start as air, and the
loop writes exactly the non-air classifications). -/
def generate_cell (p : TerrainParams) (wy : ℤ) (height noise_value : ℚ) : VoxelTypeID :=
  if (wy : ℚ) < height then
    if (wy : ℚ) < height - 4 then STONE else DIRT
  else if wy = ratTrunc height then get_surface_block p height noise_value
  else if (wy : ℚ) < p.water_level then WATER
  else AIR

/-- The cell rule exactly as claim C3 words it (transcribed from the claim,
to be compared against the source classifier generate_cell): below
height-4 stone, from height-4 up to height dirt, exactly at height the
classified surface block, above height but below the water level water,
otherwise empty. -/
def claim_cell_rule (p : TerrainParams) (wy : ℤ) (height noise_value : ℚ) : VoxelTypeID :=
  if (wy : ℚ) < height - 4 then STONE
  else if (wy : ℚ) < height then DIRT
  else if (wy : ℚ) = height then get_surface_block p height noise_value
  else if (wy : ℚ) < p.water_level then WATER
  else AIR

/-! ### Greedy mesher (systems/chunk_mesh_builder) -/

/-- A 2D layer mask for one sweep layer: mask (u, v) is the block type of
the face candidate at that cell, AIR when no face is to be emitted.  The
source stores it flat as mask[u + v * u_size]; cells with u < u_size,
v < v_size are the ones the algorithm touches. -/
abbrev Mask := ℕ → ℕ → VoxelTypeID

/-- One merged rectangle emitted by the greedy pass, before it is turned
into four vertices: mask-space position (u, v), extents (width, height) and
the merged block type. -/
structure Quad where
  u : ℕ
  v : ℕ
  width : ℕ
  height : ℕ
  block : VoxelTypeID
deriving DecidableEq

/-- The width-growing loop of ChunkMeshBuilder::greedy_mesh_face
(chunk_mesh_builder.cpp, lines 213-216): the length of the run of cells
equal to t along u starting at column u, bounded by u_size. -/
def widthRun (m : Mask) (usize : ℕ) (t : VoxelTypeID) (v u : ℕ) : ℕ :=
  if h : u < usize ∧ m u v = t then widthRun m usize t v (u + 1) + 1 else 0
termination_by usize - u
decreasing_by omega

/-- The inner check of the height-growing loop (lines 222-227): every cell
of the current width-run matches t in row r. -/
def rowMatch (m : Mask) (t : VoxelTypeID) (u width r : ℕ) : Bool :=
  (List.range width).all (fun k => decide (m (u + k) r = t))

/-- The height-growing loop (lines 219-231): the number of consecutive
rows from r on (bounded by v_size) in which the whole width-run matches. -/
def heightRun (m : Mask) (vsize : ℕ) (t : VoxelTypeID) (u width r : ℕ) : ℕ :=
  if h : r < vsize ∧ rowMatch m t u width r = true then
    heightRun m vsize t u width (r + 1) + 1
  else 0
termination_by vsize - r
decreasing_by omega

/-- Zeroing of the consumed rectangle (lines 253-257). -/
def clearRect (m : Mask) (u v width height : ℕ) : Mask :=
  fun a b => if u ≤ a ∧ a < u + width ∧ v ≤ b ∧ b < v + height then AIR else m a b

/-- The inner u loop of the greedy pass (lines 204-260) on row v, starting
at column u: skip empty cells; at a non-empty cell take the maximal width,
then the maximal height, emit the quad, zero the consumed cells, and resume
after the consumed width.  Returns the emitted quads of the rest of the row
and the mask as mutated so far. -/
def scanRow (m : Mask) (usize vsize v u : ℕ) : List Quad × Mask :=
  if hu : u < usize then
    if ha : m u v = AIR then scanRow m usize vsize v (u + 1)
    else
      let t := m u v
      let width := widthRun m usize t v u
      let height := heightRun m vsize t u width (v + 1) + 1
      let m2 := clearRect m u v width height
      let rest := scanRow m2 usize vsize v (u + width)
      (⟨u, v, width, height, t⟩ :: rest.1, rest.2)
  else ([], m)
termination_by usize - u
decreasing_by
  · omega
  · have hpos : 0 < widthRun m usize (m u v) v u := by
      rw [widthRun]
      rw [dif_pos ⟨hu, rfl⟩]
      omega
    omega

/-- The outer v loop of the greedy pass (lines 203-261) from row v on:
process each row in turn, threading the mutated mask. -/
def scanLayer (m : Mask) (usize vsize v : ℕ) : List Quad × Mask :=
  if hv : v < vsize then
    let row := scanRow m usize vsize v 0
    let rest := scanLayer row.2 usize vsize (v + 1)
    (row.1 ++ rest.1, rest.2)
  else ([], m)
termination_by vsize - v
decreasing_by omega

/-- One full greedy merge of a layer mask (the loops of
ChunkMeshBuilder::greedy_mesh_face after the mask is built, lines 203-261):
the list of emitted quads and the final mask. -/
def greedy_mesh_layer (m : Mask) (usize vsize : ℕ) : List Quad × Mask :=
  scanLayer m usize vsize 0

/-- A layer mask whose non-empty cells form exactly one axis-aligned
rectangle of a single block type t, all other cells empty. -/
def rectMask (u0 v0 w h : ℕ) (t : VoxelTypeID) : Mask :=
  fun a b => if u0 ≤ a ∧ a < u0 + w ∧ v0 ≤ b ∧ b < v0 + h then t else AIR

/-! ## Theorems -/

/-! ### Basic storage facts -/

theorem not_oob_iff_inB (s : VoxelData) (x y z : ℤ) : ¬ s.oob x y z ↔ s.inB x y z := by
  unfold VoxelData.oob VoxelData.inB; omega

/-! ### Claim C1 -/

/-- Claim C1, counterexample.  The claim says VoxelData::get_voxel returns
empty/air for every out-of-bounds coordinate; but the inline get_voxel
(voxel_data.h, lines 53-59) has no bounds check, so on a uniform stone chunk
the out-of-bounds read (-1,0,0) returns STONE, not air. -/
theorem c1_counterexample :
    ((VoxelData.make 16).fill STONE).oob (-1) 0 0 ∧
      ¬ (((VoxelData.make 16).fill STONE).get_voxel (-1) 0 0 = AIR) := by
  decide

/-- Claim C1, amended: out-of-bounds writes leave the storage completely
unchanged, and the bounds-checked accessor _get_voxel returns empty/air for
out-of-bounds coordinates; the inline get_voxel has no bounds check and, on
uniform storage, returns the uniform value whatever the coordinates are. -/
theorem c1_oob_amended (s : VoxelData) (x y z : ℤ) (t : VoxelTypeID)
    (h : s.oob x y z) :
    s.set_voxel x y z t = s ∧ s.get_voxel_checked x y z = AIR ∧
      (s.is_uniform = true → s.get_voxel x y z = s.uniform_value) := by
  refine ⟨?_, ?_, ?_⟩
  · unfold VoxelData.set_voxel; rw [if_pos h]
  · unfold VoxelData.get_voxel_checked; rw [if_pos h]
  · intro hu; unfold VoxelData.get_voxel; rw [hu]; simp

theorem c1_oob_amended_witness :
    (VoxelData.make 16).oob 16 2 3 ∧
      ((VoxelData.make 16).set_voxel 16 2 3 STONE = VoxelData.make 16 ∧
        (VoxelData.make 16).get_voxel_checked 16 2 3 = AIR ∧
        ((VoxelData.make 16).is_uniform = true →
          (VoxelData.make 16).get_voxel 16 2 3 = (VoxelData.make 16).uniform_value)) :=
  ⟨by decide, c1_oob_amended (VoxelData.make 16) 16 2 3 STONE (by decide)⟩

/-! ### Claim C7 -/

/-- Claim C7: submit_job returns false and leaves the state (queue and
pending counter included) untouched exactly when the pool is stopped or the
pending count has reached the maximum (1000 by default); otherwise it
appends the job, increments the pending counter, and returns true. -/
theorem c7_submit_job_backpressure (s : ThreadPoolState) (j : Job) :
    ThreadPoolState.make.max_pending_jobs = 1000 ∧
    ((s.should_stop = true ∨ s.max_pending_jobs ≤ s.pending_jobs) →
      s.submit_job j = (false, s)) ∧
    (s.should_stop = false → s.pending_jobs < s.max_pending_jobs →
      s.submit_job j =
        (true, { s with job_queue := s.job_queue ++ [j],
                        pending_jobs := s.pending_jobs + 1 })) := by
  refine ⟨rfl, ?_, ?_⟩
  · rintro (hstop | hfull)
    · unfold ThreadPoolState.submit_job; rw [if_pos hstop]
    · unfold ThreadPoolState.submit_job
      rcases h : s.should_stop with _ | _
      · simp only [Bool.false_eq_true, if_false, if_pos hfull]
      · simp only [if_true]
  · intro hstop hroom
    unfold ThreadPoolState.submit_job
    rw [hstop]
    simp only [Bool.false_eq_true, if_false, if_neg (not_le.mpr hroom)]

theorem c7_submit_job_backpressure_witness :
    (ThreadPoolState.make.should_stop = true ∨
        ThreadPoolState.make.max_pending_jobs ≤ ThreadPoolState.make.pending_jobs →
      ThreadPoolState.make.submit_job ⟨JobType.BUILD_MESH, 7, 0⟩ =
        (false, ThreadPoolState.make)) ∧
    (ThreadPoolState.make.should_stop = false →
      ThreadPoolState.make.pending_jobs < ThreadPoolState.make.max_pending_jobs →
      ThreadPoolState.make.submit_job ⟨JobType.BUILD_MESH, 7, 0⟩ =
        (true, { ThreadPoolState.make with
                   job_queue := ThreadPoolState.make.job_queue ++ [⟨JobType.BUILD_MESH, 7, 0⟩],
                   pending_jobs := ThreadPoolState.make.pending_jobs + 1 })) :=
  ⟨(c7_submit_job_backpressure ThreadPoolState.make ⟨JobType.BUILD_MESH, 7, 0⟩).2.1,
   (c7_submit_job_backpressure ThreadPoolState.make ⟨JobType.BUILD_MESH, 7, 0⟩).2.2⟩

/-! ### Claims C4 and C8 -/

/-- Claim C4, counterexample.  The claim says installation of a null mesh
for a still-present chunk transitions that chunk to Active; but
create_chunk_mesh_instance returns before touching the chunk when the mesh
is null, so the chunk at the origin of w0 stays GENERATING. -/
theorem c4_counterexample :
    w0.findChunk ((0 : ℤ), (0 : ℤ), (0 : ℤ)) ≠ none ∧
      ¬ (((w0.create_chunk_mesh_instance ((0 : ℤ), (0 : ℤ), (0 : ℤ)) none).findChunk
            ((0 : ℤ), (0 : ℤ), (0 : ℤ))).map ChunkM.st = some ChunkSt.ACTIVE) := by
  decide

/-- Claim C4, amended: when the finished mesh is null, the installation step
creates no render handle and is a complete no-op — it leaves the world
(chunk states included) unchanged; the chunk reaches Active through the
generation step itself (terrain_generator.cpp line 173), not through
installation. -/
theorem c4_null_mesh_installation (w : WorldModel) (pos : Coord) :
    w.create_chunk_mesh_instance pos none = w := by
  unfold WorldModel.create_chunk_mesh_instance
  simp

/-- Claim C8: when the chunk coordinate is absent from the chunk table, the
installation step is a no-op: no table entry is recreated, no render handle
is created, and both tables are left unchanged. -/
theorem c8_install_after_unload (w : WorldModel) (pos : Coord) (mesh : Option Nat)
    (h : w.findChunk pos = none) :
    w.create_chunk_mesh_instance pos mesh = w := by
  unfold WorldModel.create_chunk_mesh_instance
  rcases mesh with _ | m
  · simp
  · simp only [reduceCtorEq, if_false]
    rw [h]

theorem c8_install_after_unload_witness :
    w0.findChunk ((5 : ℤ), (0 : ℤ), (0 : ℤ)) = none ∧
      w0.create_chunk_mesh_instance ((5 : ℤ), (0 : ℤ), (0 : ℤ)) (some 3) = w0 :=
  ⟨by decide, c8_install_after_unload w0 ((5 : ℤ), (0 : ℤ), (0 : ℤ)) (some 3) (by decide)⟩

/-! ### Claim C10 -/

/-- Claim C10: a voxel query for a world position whose containing chunk is
not loaded returns empty/air; being a pure function of the world (the
source method is const), it creates, loads and modifies nothing. -/
theorem c10_query_unloaded_is_air (w : WorldModel) (p : ℚ × ℚ × ℚ)
    (h : w.findChunk (world_to_chunk_pos p) = none) :
    get_voxel_at w p = AIR := by
  unfold get_voxel_at
  rw [h]

theorem c10_query_unloaded_is_air_witness :
    (WorldModel.mk [] []).findChunk (world_to_chunk_pos (0, 0, 0)) = none ∧
      get_voxel_at (WorldModel.mk [] []) (0, 0, 0) = AIR :=
  ⟨rfl, c10_query_unloaded_is_air (WorldModel.mk [] []) (0, 0, 0) rfl⟩

/-! ### Claim C2 -/

/-- Claim C2 names the code wrong (sign-extension bug).  The packed key was
meant to be injective, but for a negative worldZ the sign-extended low half
overwrites the entire upper half: (1,-1) and (5,-1) produce the same key
(all 64 bits set).  Consequently the second lookup of this theorem returns
the height cached for (5,-1), namely 88, although the claimed formula
base_height + noise2d(1,-1) * max_height_variation gives 64 for it. -/
theorem c2_cache_key_collision :
    make_cache_key 1 (-1) = make_cache_key 5 (-1) ∧
    ¬ (((1 : ℤ), (-1 : ℤ)) = ((5 : ℤ), (-1 : ℤ))) ∧
    (∀ noise2d : ℤ → ℤ → ℚ, noise2d 5 (-1) = 1 → noise2d 1 (-1) = 0 →
      (get_height_at noise2d params_default
          (get_height_at noise2d params_default [] 5 (-1)).2 1 (-1)).1 = 88 ∧
        (params_default.base_height : ℚ) +
            noise2d 1 (-1) * (params_default.max_height_variation : ℚ) = 64) := by
  have hk : make_cache_key 1 (-1) = make_cache_key 5 (-1) := by decide
  refine ⟨hk, by decide, ?_⟩
  intro noise2d h5 h1
  constructor
  · show (get_height_at noise2d params_default
        (get_height_at noise2d params_default [] 5 (-1)).2 1 (-1)).1 = 88
    simp only [get_height_at, List.lookup_nil, hk, List.lookup_cons_self]
    rw [h5]
    norm_num [params_default]
  · rw [h1]
    norm_num [params_default]

/-! ### Claim C3 -/

theorem ratTrunc_intCast (n : ℤ) : ratTrunc (n : ℚ) = n := by
  unfold ratTrunc
  simp [Rat.num_intCast, Rat.den_intCast, Int.tdiv_one]

theorem ratTrunc_le_of_nonneg (q : ℚ) (hq : 0 ≤ q) : (ratTrunc q : ℚ) ≤ q := by
  have hnum : 0 ≤ q.num := Rat.num_nonneg.mpr hq
  have htdiv : ratTrunc q = ⌊q⌋ := by
    unfold ratTrunc
    rw [Int.tdiv_eq_ediv hnum (by positivity), Rat.floor_def]
  rw [htdiv]
  exact Int.floor_le q

/-- Claim C3: for every computed column height h that is nonnegative (with
the generator's fixed default parameters every computed height lies in
[40, 88], since the noise primitive ranges over [-1,1]), the source's
per-cell classification agrees with the claim's decision rule at every
cell. -/
theorem c3_cell_classification (p : TerrainParams) (wy : ℤ) (height noise_value : ℚ)
    (hh : 0 ≤ height) :
    generate_cell p wy height noise_value = claim_cell_rule p wy height noise_value := by
  unfold generate_cell claim_cell_rule
  by_cases h1 : (wy : ℚ) < height - 4
  · have h2 : (wy : ℚ) < height := by linarith
    rw [if_pos h2, if_pos h1, if_pos h1]
  · by_cases h2 : (wy : ℚ) < height
    · rw [if_pos h2, if_neg h1, if_neg h1, if_pos h2]
    · rw [if_neg h2, if_neg h1, if_neg h2]
      by_cases h3 : (wy : ℚ) = height
      · have h4 : wy = ratTrunc height := by
          have hr : height = ((wy : ℤ) : ℚ) := h3.symm
          rw [hr, ratTrunc_intCast]
        rw [if_pos h4, if_pos h3]
      · have h5 : height < (wy : ℚ) := lt_of_le_of_ne (not_lt.mp h2) (Ne.symm h3)
        have h6 : ¬ (wy = ratTrunc height) := by
          intro he
          have hle : (ratTrunc height : ℚ) ≤ height := ratTrunc_le_of_nonneg height hh
          rw [← he] at hle
          exact absurd (lt_of_le_of_lt hle h5) (lt_irrefl _)
        rw [if_neg h6, if_neg h3]

theorem c3_cell_classification_witness :
    (0 : ℚ) ≤ 65 ∧
      generate_cell params_default 70 65 0 = claim_cell_rule params_default 70 65 0 :=
  ⟨by norm_num, c3_cell_classification params_default 70 65 0 (by norm_num)⟩

/-! ### Index arithmetic of the dense buffer -/

theorem get_index_bounds (s : VoxelData) {x y z : ℤ} (h : s.inB x y z) :
    0 ≤ s.get_index x y z ∧ s.get_index x y z < s.total_voxels := by
  obtain ⟨hx0, hx1, hy0, hy1, hz0, hz1⟩ := h
  have hH : 0 < s.chunk_size_y := lt_of_le_of_lt hy0 hy1
  unfold VoxelData.get_index VoxelData.total_voxels CHUNK_SIZE_XZ at *
  constructor
  · have h1 : 0 ≤ y * 16 := by linarith
    have h2 : 0 ≤ z * 16 * s.chunk_size_y := by positivity
    linarith
  · have h1 : y * 16 ≤ (s.chunk_size_y - 1) * 16 :=
      mul_le_mul_of_nonneg_right (by omega) (by norm_num)
    have h2 : z * (16 * s.chunk_size_y) ≤ 15 * (16 * s.chunk_size_y) :=
      mul_le_mul_of_nonneg_right (by omega) (by positivity)
    have h3 : z * 16 * s.chunk_size_y = z * (16 * s.chunk_size_y) := by ring
    nlinarith

theorem get_index_inj (s : VoxelData) {x y z x2 y2 z2 : ℤ}
    (h : s.inB x y z) (h2 : s.inB x2 y2 z2)
    (he : s.get_index x y z = s.get_index x2 y2 z2) :
    x = x2 ∧ y = y2 ∧ z = z2 := by
  obtain ⟨hx0, hx1, hy0, hy1, hz0, hz1⟩ := h
  obtain ⟨hx0', hx1', hy0', hy1', hz0', hz1'⟩ := h2
  have hH : 0 < s.chunk_size_y := lt_of_le_of_lt hy0 hy1
  unfold VoxelData.get_index CHUNK_SIZE_XZ at he
  have e1 : x + 16 * (y + s.chunk_size_y * z) = x2 + 16 * (y2 + s.chunk_size_y * z2) := by
    linear_combination he
  have hx16 : x < 16 := by
    unfold CHUNK_SIZE_XZ at hx1; exact hx1
  have hx16' : x2 < 16 := by
    unfold CHUNK_SIZE_XZ at hx1'; exact hx1'
  have ex : x = x2 := by
    have m1 : (x + 16 * (y + s.chunk_size_y * z)) % 16 = x := by
      rw [Int.add_mul_emod_self_left]
      exact Int.emod_eq_of_lt hx0 hx16
    have m2 : (x2 + 16 * (y2 + s.chunk_size_y * z2)) % 16 = x2 := by
      rw [Int.add_mul_emod_self_left]
      exact Int.emod_eq_of_lt hx0' hx16'
    rw [← m1, ← m2, e1]
  have e2 : y + s.chunk_size_y * z = y2 + s.chunk_size_y * z2 := by
    rw [ex] at e1
    linarith
  have ey : y = y2 := by
    have m1 : (y + s.chunk_size_y * z) % s.chunk_size_y = y := by
      rw [Int.add_mul_emod_self_left]
      exact Int.emod_eq_of_lt hy0 hy1
    have m2 : (y2 + s.chunk_size_y * z2) % s.chunk_size_y = y2 := by
      rw [Int.add_mul_emod_self_left]
      exact Int.emod_eq_of_lt hy0' hy1'
    rw [← m1, ← m2, e2]
  have ez : z = z2 := by
    have hz : s.chunk_size_y * z = s.chunk_size_y * z2 := by
      rw [ey] at e2; linarith
    exact mul_left_cancel₀ (ne_of_gt hH) hz
  exact ⟨ex, ey, ez⟩

theorem index_surj (s : VoxelData) (hH : 0 < s.chunk_size_y) (i : ℕ)
    (hi : (i : ℤ) < s.total_voxels) :
    ∃ x y z : ℤ, s.inB x y z ∧ (s.get_index x y z).toNat = i := by
  have hHc : ((s.chunk_size_y.toNat : ℤ)) = s.chunk_size_y :=
    Int.toNat_of_nonneg (le_of_lt hH)
  set Hn := s.chunk_size_y.toNat with hHn
  have hHn0 : 0 < Hn := by omega
  have htot : s.total_voxels = 256 * s.chunk_size_y := by
    unfold VoxelData.total_voxels CHUNK_SIZE_XZ; ring
  have hi' : i < 256 * Hn := by
    rw [htot, ← hHc] at hi
    exact_mod_cast hi
  have hdiv16 : i / 16 < 16 * Hn := by
    rw [Nat.div_lt_iff_lt_mul (by norm_num)]
    omega
  have hz16 : i / 16 / Hn < 16 := by
    rw [Nat.div_lt_iff_lt_mul hHn0]
    omega
  refine ⟨((i % 16 : ℕ) : ℤ), (((i / 16) % Hn : ℕ) : ℤ), ((i / 16 / Hn : ℕ) : ℤ), ?_, ?_⟩
  · refine ⟨by positivity, ?_, by positivity, ?_, by positivity, ?_⟩
    · unfold CHUNK_SIZE_XZ
      exact_mod_cast Nat.mod_lt i (by norm_num)
    · rw [← hHc]
      exact_mod_cast Nat.mod_lt (i / 16) hHn0
    · unfold CHUNK_SIZE_XZ
      exact_mod_cast hz16
  · have key : i % 16 + ((i / 16) % Hn) * 16 + (i / 16 / Hn) * 16 * Hn = i := by
      have hA := Nat.mod_add_div (i / 16) Hn
      have hB := Nat.mod_add_div i 16
      calc i % 16 + ((i / 16) % Hn) * 16 + (i / 16 / Hn) * 16 * Hn
          = i % 16 + 16 * ((i / 16) % Hn + Hn * (i / 16 / Hn)) := by ring
        _ = i % 16 + 16 * (i / 16) := by rw [hA]
        _ = i := hB
    have hcast : s.get_index ((i % 16 : ℕ) : ℤ) (((i / 16) % Hn : ℕ) : ℤ)
        ((i / 16 / Hn : ℕ) : ℤ) =
        ((i % 16 + ((i / 16) % Hn) * 16 + (i / 16 / Hn) * 16 * Hn : ℕ) : ℤ) := by
      unfold VoxelData.get_index CHUNK_SIZE_XZ
      rw [← hHc]
      push_cast
      ring
    rw [hcast, key]
    exact Int.toNat_natCast i

/-! ### Claim C6 -/

/-- Claim C6: writing a different value B at an in-bounds coordinate of a
uniform chunk promotes to dense storage that broadcasts the old uniform
value A into every cell before the write: afterwards the written cell reads
B and every other in-bounds cell reads A; writing the current uniform value
changes nothing and allocates nothing. -/
theorem c6_promotion (s : VoxelData) (hwf : s.WF) (hu : s.is_uniform = true)
    (x y z : ℤ) (hin : s.inB x y z) (B : VoxelTypeID) :
    (B ≠ s.uniform_value →
      (s.set_voxel x y z B).is_uniform = false ∧
      (s.set_voxel x y z B).data =
        some ((List.replicate s.total_voxels.toNat s.uniform_value).set
          (s.get_index x y z).toNat B) ∧
      (s.set_voxel x y z B).get_voxel x y z = B ∧
      (∀ x2 y2 z2 : ℤ, s.inB x2 y2 z2 → ¬ (x2 = x ∧ y2 = y ∧ z2 = z) →
        (s.set_voxel x y z B).get_voxel x2 y2 z2 = s.uniform_value)) ∧
    s.set_voxel x y z s.uniform_value = s := by
  have hnoob : ¬ s.oob x y z := (not_oob_iff_inB s x y z).mpr hin
  have hidx := get_index_bounds s hin
  have hlt : (s.get_index x y z).toNat < s.total_voxels.toNat := by omega
  constructor
  · intro hB
    have hset : s.set_voxel x y z B =
        { s with is_uniform := false,
                 data := some ((List.replicate s.total_voxels.toNat s.uniform_value).set
                   (s.get_index x y z).toNat B) } := by
      unfold VoxelData.set_voxel
      rw [if_neg hnoob, if_neg (by rintro ⟨_, hBe⟩; exact hB hBe), hu]
      simp
    refine ⟨by rw [hset], by rw [hset], ?_, ?_⟩
    · rw [hset]
      show ((List.replicate s.total_voxels.toNat s.uniform_value).set
          (s.get_index x y z).toNat B).getD (s.get_index x y z).toNat 0 = B
      rw [List.getD_eq_getElem?_getD, List.getElem?_set_self (by simpa using hlt)]
      rfl
    · intro x2 y2 z2 hin2 hne
      have hidx2 := get_index_bounds s hin2
      have hlt2 : (s.get_index x2 y2 z2).toNat < s.total_voxels.toNat := by omega
      have hne_idx : (s.get_index x y z).toNat ≠ (s.get_index x2 y2 z2).toNat := by
        intro he
        have heq : s.get_index x y z = s.get_index x2 y2 z2 := by omega
        have hc := get_index_inj s hin hin2 heq
        exact hne ⟨hc.1.symm, hc.2.1.symm, hc.2.2.symm⟩
      rw [hset]
      show ((List.replicate s.total_voxels.toNat s.uniform_value).set
          (s.get_index x y z).toNat B).getD (s.get_index x2 y2 z2).toNat 0 = s.uniform_value
      rw [List.getD_eq_getElem?_getD, List.getElem?_set_ne hne_idx,
        List.getElem?_replicate]
      rw [if_pos (by simpa using hlt2)]
      rfl
  · unfold VoxelData.set_voxel
    rw [if_neg hnoob, if_pos ⟨hu, rfl⟩]

theorem c6_promotion_witness :
    (VoxelData.make 16).WF ∧ (VoxelData.make 16).is_uniform = true ∧
      (VoxelData.make 16).inB 1 2 3 ∧ STONE ≠ (VoxelData.make 16).uniform_value ∧
      ((VoxelData.make 16).set_voxel 1 2 3 STONE).get_voxel 1 2 3 = STONE :=
  ⟨by decide, rfl, by decide, by decide,
    (((c6_promotion (VoxelData.make 16) (by decide) rfl 1 2 3 (by decide) STONE).1
      (by decide)).2.2).1⟩

/-! ### Claim C5 -/

theorem get_voxel_dense (s : VoxelData) (buf : List VoxelTypeID)
    (hu : s.is_uniform = false) (hd : s.data = some buf) (x y z : ℤ) :
    s.get_voxel x y z = buf.getD (s.get_index x y z).toNat 0 := by
  unfold VoxelData.get_voxel
  rw [hu, hd]
  simp

theorem get_voxel_of_uniform (s : VoxelData) (hu : s.is_uniform = true) (x y z : ℤ) :
    s.get_voxel x y z = s.uniform_value := by
  unfold VoxelData.get_voxel
  rw [hu]
  simp

theorem ace_of_uniform (s : VoxelData) (hu : s.is_uniform = true) : all_cells_eq s := by
  intro x y z x2 y2 z2 _ _
  rw [get_voxel_of_uniform s hu, get_voxel_of_uniform s hu]

theorem check_of_uniform (s : VoxelData) (hu : s.is_uniform = true) :
    s.check_and_optimize_uniform = (true, s) := by
  unfold VoxelData.check_and_optimize_uniform
  rw [hu]
  simp

theorem check_of_dense (s : VoxelData) (buf : List VoxelTypeID)
    (hu : s.is_uniform = false) (hd : s.data = some buf) :
    s.check_and_optimize_uniform =
      (if buf.all (fun v => v = buf.getD 0 0) then
        (true, { s with is_uniform := true, uniform_value := buf.getD 0 0, data := none })
      else (false, s)) := by
  unfold VoxelData.check_and_optimize_uniform
  rw [hu, hd]
  simp

theorem inB_origin (s : VoxelData) (hH : 0 < s.chunk_size_y) : s.inB 0 0 0 := by
  unfold VoxelData.inB CHUNK_SIZE_XZ
  omega

theorem get_index_origin (s : VoxelData) : s.get_index 0 0 0 = 0 := by
  unfold VoxelData.get_index
  ring

theorem getD_mem (buf : List VoxelTypeID) (i : ℕ) (hi : i < buf.length) :
    buf.getD i 0 ∈ buf := by
  rw [List.getD_eq_getElem?_getD, List.getElem?_eq_getElem hi]
  exact List.getElem_mem hi

/-- Parts (a)-(d) of the optimize-pass contract, for any well-formed
storage; shared by the theorems of claims C5. -/
theorem check_correct (s : VoxelData) (hwf : s.WF) :
    ((s.check_and_optimize_uniform.1 = true) ↔ all_cells_eq s) ∧
    (s.check_and_optimize_uniform.1 = true →
      s.check_and_optimize_uniform.2.is_uniform = true ∧
        s.check_and_optimize_uniform.2.data = none) ∧
    (s.check_and_optimize_uniform.1 = false → s.check_and_optimize_uniform.2 = s) ∧
    (∀ x y z : ℤ, s.inB x y z →
      s.check_and_optimize_uniform.2.get_voxel x y z = s.get_voxel x y z) := by
  obtain ⟨hH, hcase⟩ := hwf
  rcases hcase with ⟨hu, hd⟩ | ⟨hu, hmap⟩
  · have hck := check_of_uniform s hu
    refine ⟨?_, ?_, ?_, ?_⟩
    · rw [hck]
      exact iff_of_true rfl (ace_of_uniform s hu)
    · rw [hck]
      exact fun _ => ⟨hu, hd⟩
    · rw [hck]
      intro hfalse
      simp at hfalse
    · rw [hck]
      intro x y z _
      rfl
  · obtain ⟨buf, hd, hlen⟩ : ∃ buf, s.data = some buf ∧ buf.length = s.total_voxels.toNat := by
      rcases hn : s.data with _ | buf
      · rw [hn] at hmap; simp at hmap
      · rw [hn] at hmap
        simp only [Option.map_some', Option.some.injEq] at hmap
        exact ⟨buf, rfl, hmap⟩
    have hck := check_of_dense s buf hu hd
    have hcell : ∀ x y z : ℤ, s.inB x y z →
        s.get_voxel x y z = buf.getD (s.get_index x y z).toNat 0 :=
      fun x y z _ => get_voxel_dense s buf hu hd x y z
    have hidxlt : ∀ x y z : ℤ, s.inB x y z → (s.get_index x y z).toNat < buf.length := by
      intro x y z hin
      have := get_index_bounds s hin
      omega
    have h000 := inB_origin s hH
    have hget000 : s.get_voxel 0 0 0 = buf.getD 0 0 := by
      rw [hcell 0 0 0 h000, get_index_origin]
      rfl
    by_cases hall : buf.all (fun v => v = buf.getD 0 0) = true
    · have hallv : ∀ v ∈ buf, v = buf.getD 0 0 := by
        simpa [List.all_eq_true] using hall
      have hckt : s.check_and_optimize_uniform =
          (true, { s with is_uniform := true, uniform_value := buf.getD 0 0, data := none }) := by
        rw [hck, if_pos hall]
      have hget_first : ∀ x y z : ℤ, s.inB x y z → s.get_voxel x y z = buf.getD 0 0 := by
        intro x y z hin
        rw [hcell x y z hin]
        exact hallv _ (getD_mem buf _ (hidxlt x y z hin))
      refine ⟨?_, ?_, ?_, ?_⟩
      · rw [hckt]
        refine iff_of_true rfl ?_
        intro x y z x2 y2 z2 hin1 hin2
        rw [hget_first x y z hin1, hget_first x2 y2 z2 hin2]
      · rw [hckt]
        exact fun _ => ⟨rfl, rfl⟩
      · rw [hckt]
        intro hfalse
        simp at hfalse
      · intro x y z hin
        rw [hckt, hget_first x y z hin]
        rfl
    · have hckf : s.check_and_optimize_uniform = (false, s) := by
        rw [hck, if_neg hall]
      have hnace : ¬ all_cells_eq s := by
        intro hace
        apply hall
        rw [List.all_eq_true]
        intro v hv
        obtain ⟨i, hi, hiv⟩ := List.mem_iff_getElem.mp hv
        have hgetd : buf.getD i 0 = v := by
          rw [List.getD_eq_getElem?_getD, List.getElem?_eq_getElem hi, hiv]
          rfl
        have hiZ : (i : ℤ) < s.total_voxels := by omega
        obtain ⟨x, y, z, hin, hidx⟩ := index_surj s hH i hiZ
        have hv_cell : s.get_voxel x y z = v := by
          rw [hcell x y z hin, hidx, hgetd]
        have := hace x y z 0 0 0 hin h000
        rw [hv_cell, hget000] at this
        simp [this]
      refine ⟨?_, ?_, ?_, ?_⟩
      · rw [hckf]
        exact iff_of_false (by simp) hnace
      · rw [hckf]
        intro hfalse
        simp at hfalse
      · rw [hckf]
        intro _
        rfl
      · intro x y z _
        rw [hckf]

theorem set_voxel_WF (s : VoxelData) (hwf : s.WF) (x y z : ℤ) (t : VoxelTypeID) :
    (s.set_voxel x y z t).WF := by
  obtain ⟨hH, hcase⟩ := hwf
  unfold VoxelData.set_voxel
  by_cases hoob : s.oob x y z
  · rw [if_pos hoob]
    exact ⟨hH, hcase⟩
  · rw [if_neg hoob]
    by_cases hsame : s.is_uniform = true ∧ t = s.uniform_value
    · rw [if_pos hsame]
      exact ⟨hH, hcase⟩
    · rw [if_neg hsame]
      refine ⟨hH, Or.inr ⟨rfl, ?_⟩⟩
      rcases hcase with ⟨hu, hd⟩ | ⟨hu, hmap⟩
      · simp only [hu, if_true, Option.map_some', List.length_set, List.length_replicate]
        rfl
      · rcases hn : s.data with _ | buf
        · rw [hn] at hmap; simp at hmap
        · rw [hn] at hmap
          simp only [Option.map_some', Option.some.injEq] at hmap
          simp only [hu, hn, Bool.false_eq_true, if_false, Option.getD_some,
            Option.map_some', List.length_set]
          exact congrArg some hmap

theorem make_WF (H : ℤ) (hH : 0 < H) : (VoxelData.make H).WF :=
  ⟨hH, Or.inl ⟨rfl, rfl⟩⟩

theorem applyOps_WF (ops : List (ℤ × ℤ × ℤ × VoxelTypeID)) :
    ∀ s : VoxelData, s.WF → (applyOps s ops).WF := by
  induction ops with
  | nil => intro s hwf; exact hwf
  | cons op rest ih =>
    intro s hwf
    exact ih _ (set_voxel_WF s hwf op.1 op.2.1 op.2.2.1 op.2.2.2)

/-- Claim C5: the optimize pass returns true and leaves the storage in
uniform representation (no dense buffer) exactly when every in-bounds cell
holds one common value, returns false without mutating anything otherwise,
preserves every in-bounds read, and after any sequence of set_voxel calls
on a fresh chunk followed by the pass, the storage is uniform iff all its
in-bounds cells are equal. -/
theorem c5_optimize_uniform (s : VoxelData) (hwf : s.WF) (H : ℤ) (hH : 0 < H)
    (ops : List (ℤ × ℤ × ℤ × VoxelTypeID)) :
    ((s.check_and_optimize_uniform.1 = true) ↔ all_cells_eq s) ∧
    (s.check_and_optimize_uniform.1 = true →
      s.check_and_optimize_uniform.2.is_uniform = true ∧
        s.check_and_optimize_uniform.2.data = none) ∧
    (s.check_and_optimize_uniform.1 = false → s.check_and_optimize_uniform.2 = s) ∧
    (∀ x y z : ℤ, s.inB x y z →
      s.check_and_optimize_uniform.2.get_voxel x y z = s.get_voxel x y z) ∧
    (((applyOps (VoxelData.make H) ops).check_and_optimize_uniform.2.is_uniform = true) ↔
      all_cells_eq ((applyOps (VoxelData.make H) ops).check_and_optimize_uniform.2)) := by
  have co := check_correct s hwf
  refine ⟨co.1, co.2.1, co.2.2.1, co.2.2.2, ?_⟩
  have hwf_f : (applyOps (VoxelData.make H) ops).WF :=
    applyOps_WF ops (VoxelData.make H) (make_WF H hH)
  have cof := check_correct (applyOps (VoxelData.make H) ops) hwf_f
  rcases hres : (applyOps (VoxelData.make H) ops).check_and_optimize_uniform.1 with _ | _
  · have ht := cof.2.2.1 hres
    have hnace : ¬ all_cells_eq (applyOps (VoxelData.make H) ops) := by
      intro hace
      have := cof.1.mpr hace
      rw [hres] at this
      simp at this
    have hsfu : (applyOps (VoxelData.make H) ops).is_uniform = false := by
      rcases hb : (applyOps (VoxelData.make H) ops).is_uniform with _ | _
      · rfl
      · have hcku := check_of_uniform _ hb
        rw [hcku] at hres
        simp at hres
    rw [ht]
    exact iff_of_false (by rw [hsfu]; simp) hnace
  · have hun := (cof.2.1 hres).1
    exact iff_of_true hun (ace_of_uniform _ hun)

theorem c5_optimize_uniform_witness :
    (VoxelData.make 16).WF ∧ (0 : ℤ) < 16 ∧
      ((VoxelData.make 16).check_and_optimize_uniform.1 = true ↔
        all_cells_eq (VoxelData.make 16)) :=
  ⟨by decide, by decide,
    (c5_optimize_uniform (VoxelData.make 16) (by decide) 16 (by decide) []).1⟩

/-! ### Claim C9 -/

theorem widthRun_eq (m : Mask) (usize : ℕ) (t : VoxelTypeID) (v : ℕ) :
    ∀ (n c : ℕ), (∀ k, c ≤ k → k < c + n → m k v = t) →
      ¬ (c + n < usize ∧ m (c + n) v = t) → c + n ≤ usize →
      widthRun m usize t v c = n := by
  intro n
  induction n with
  | zero =>
    intro c hrun hstop hle
    rw [widthRun]
    rw [dif_neg (by simpa using hstop)]
  | succ n ih =>
    intro c hrun hstop hle
    rw [widthRun]
    rw [dif_pos ⟨by omega, hrun c (le_refl c) (by omega)⟩]
    have hsum : c + 1 + n = c + (n + 1) := by omega
    rw [ih (c + 1) (fun k hk1 hk2 => hrun k (by omega) (by omega))
      (by rw [hsum]; exact hstop) (by omega)]

theorem rowMatch_iff (m : Mask) (t : VoxelTypeID) (u width r : ℕ) :
    rowMatch m t u width r = true ↔ ∀ k < width, m (u + k) r = t := by
  unfold rowMatch
  rw [List.all_eq_true]
  constructor
  · intro hall k hk
    simpa using hall k (List.mem_range.mpr hk)
  · intro hall k hk
    simpa using hall k (List.mem_range.mp hk)

theorem heightRun_eq (m : Mask) (vsize : ℕ) (t : VoxelTypeID) (u width : ℕ) :
    ∀ (n r : ℕ), (∀ j, r ≤ j → j < r + n → rowMatch m t u width j = true) →
      ¬ (r + n < vsize ∧ rowMatch m t u width (r + n) = true) → r + n ≤ vsize →
      heightRun m vsize t u width r = n := by
  intro n
  induction n with
  | zero =>
    intro r hrun hstop hle
    rw [heightRun]
    rw [dif_neg (by simpa using hstop)]
  | succ n ih =>
    intro r hrun hstop hle
    rw [heightRun]
    rw [dif_pos ⟨by omega, hrun r (le_refl r) (by omega)⟩]
    have hsum : r + 1 + n = r + (n + 1) := by omega
    rw [ih (r + 1) (fun j hj1 hj2 => hrun j (by omega) (by omega))
      (by rw [hsum]; exact hstop) (by omega)]

theorem scanRow_all_air (usize vsize v : ℕ) :
    ∀ (fuel : ℕ) (m : Mask) (u : ℕ), usize - u ≤ fuel →
      (∀ c, u ≤ c → c < usize → m c v = AIR) →
      scanRow m usize vsize v u = ([], m) := by
  intro fuel
  induction fuel with
  | zero =>
    intro m u hf hz
    rw [scanRow]
    rw [dif_neg (by omega)]
  | succ fuel ih =>
    intro m u hf hz
    rw [scanRow]
    by_cases hu : u < usize
    · rw [dif_pos hu, dif_pos (hz u (le_refl u) hu)]
      exact ih m (u + 1) (by omega) (fun c hc1 hc2 => hz c (by omega) hc2)
    · rw [dif_neg hu]

theorem scanRow_skip (usize vsize v : ℕ) :
    ∀ (fuel : ℕ) (m : Mask) (u u2 : ℕ), u2 - u ≤ fuel → u ≤ u2 →
      (∀ c, u ≤ c → c < u2 → m c v = AIR) →
      scanRow m usize vsize v u = scanRow m usize vsize v u2 := by
  intro fuel
  induction fuel with
  | zero =>
    intro m u u2 hf hle hz
    have he : u = u2 := by omega
    rw [he]
  | succ fuel ih =>
    intro m u u2 hf hle hz
    by_cases he : u = u2
    · rw [he]
    · have hlt : u < u2 := by omega
      by_cases hu : u < usize
      · conv_lhs => rw [scanRow]
        rw [dif_pos hu, dif_pos (hz u (le_refl u) hlt)]
        exact ih m (u + 1) u2 (by omega) (by omega) (fun c hc1 hc2 => hz c (by omega) hc2)
      · conv_lhs => rw [scanRow]
        rw [dif_neg hu]
        rw [scanRow]
        rw [dif_neg (by omega)]

theorem clearRect_rectMask (u0 v0 w h : ℕ) (t : VoxelTypeID) (a b : ℕ) :
    clearRect (rectMask u0 v0 w h t) u0 v0 w h a b = AIR := by
  unfold clearRect rectMask
  by_cases hc : u0 ≤ a ∧ a < u0 + w ∧ v0 ≤ b ∧ b < v0 + h
  · rw [if_pos hc]
  · rw [if_neg hc, if_neg hc]

theorem scanLayer_all_air (usize vsize : ℕ) :
    ∀ (fuel : ℕ) (m : Mask) (v : ℕ), vsize - v ≤ fuel →
      (∀ a b, m a b = AIR) →
      scanLayer m usize vsize v = ([], m) := by
  intro fuel
  induction fuel with
  | zero =>
    intro m v hf hz
    rw [scanLayer]
    rw [dif_neg (by omega)]
  | succ fuel ih =>
    intro m v hf hz
    rw [scanLayer]
    by_cases hv : v < vsize
    · rw [dif_pos hv]
      have hrow : scanRow m usize vsize v 0 = ([], m) :=
        scanRow_all_air usize vsize v usize m 0 (by omega) (fun c _ _ => hz c v)
      simp only [hrow]
      have hrest : scanLayer m usize vsize (v + 1) = ([], m) := ih m (v + 1) (by omega) hz
      simp only [hrest]
      rfl
    · rw [dif_neg hv]

theorem scanRow_rect (usize vsize u0 v0 w h : ℕ) (t : VoxelTypeID)
    (ht : t ≠ AIR) (hw : 0 < w) (hh : 0 < h)
    (hu : u0 + w ≤ usize) (hv : v0 + h ≤ vsize) :
    scanRow (rectMask u0 v0 w h t) usize vsize v0 0 =
      ([⟨u0, v0, w, h, t⟩], clearRect (rectMask u0 v0 w h t) u0 v0 w h) := by
  have hskip : scanRow (rectMask u0 v0 w h t) usize vsize v0 0 =
      scanRow (rectMask u0 v0 w h t) usize vsize v0 u0 :=
    scanRow_skip usize vsize v0 u0 (rectMask u0 v0 w h t) 0 u0 (by omega) (by omega)
      (fun c _ hc2 => by unfold rectMask; rw [if_neg (by omega)])
  rw [hskip]
  have hu0 : u0 < usize := by omega
  have hcell : rectMask u0 v0 w h t u0 v0 = t := by
    unfold rectMask
    rw [if_pos (by omega)]
  rw [scanRow]
  rw [dif_pos hu0, dif_neg (by rw [hcell]; exact ht)]
  simp only [hcell]
  have hwidth : widthRun (rectMask u0 v0 w h t) usize t v0 u0 = w := by
    refine widthRun_eq (rectMask u0 v0 w h t) usize t v0 w u0 ?_ ?_ hu
    · intro k hk1 hk2
      unfold rectMask
      rw [if_pos (by omega)]
    · rintro ⟨hlt, hc2⟩
      unfold rectMask at hc2
      rw [if_neg (by omega)] at hc2
      exact ht hc2.symm
  simp only [hwidth]
  have hheight : heightRun (rectMask u0 v0 w h t) vsize t u0 w (v0 + 1) = h - 1 := by
    have hsum : v0 + 1 + (h - 1) = v0 + h := by omega
    refine heightRun_eq (rectMask u0 v0 w h t) vsize t u0 w (h - 1) (v0 + 1) ?_ ?_ (by omega)
    · intro j hj1 hj2
      rw [rowMatch_iff]
      intro k hk
      unfold rectMask
      rw [if_pos (by omega)]
    · rintro ⟨hlt, hrm⟩
      rw [hsum] at hrm
      rw [rowMatch_iff] at hrm
      have h0 := hrm 0 hw
      unfold rectMask at h0
      rw [if_neg (by omega)] at h0
      exact ht h0.symm
  simp only [hheight]
  have hh1 : h - 1 + 1 = h := by omega
  simp only [hh1]
  have hrest : scanRow (clearRect (rectMask u0 v0 w h t) u0 v0 w h) usize vsize v0 (u0 + w) =
      ([], clearRect (rectMask u0 v0 w h t) u0 v0 w h) :=
    scanRow_all_air usize vsize v0 usize _ (u0 + w) (by omega)
      (fun c _ _ => clearRect_rectMask u0 v0 w h t c v0)
  simp only [hrest]

theorem scanLayer_rect_at_v0 (usize vsize u0 v0 w h : ℕ) (t : VoxelTypeID)
    (ht : t ≠ AIR) (hw : 0 < w) (hh : 0 < h)
    (hu : u0 + w ≤ usize) (hv : v0 + h ≤ vsize) :
    (scanLayer (rectMask u0 v0 w h t) usize vsize v0).1 = [⟨u0, v0, w, h, t⟩] ∧
      ∀ a b, (scanLayer (rectMask u0 v0 w h t) usize vsize v0).2 a b = AIR := by
  have hv0 : v0 < vsize := by omega
  rw [scanLayer]
  rw [dif_pos hv0]
  have hrow := scanRow_rect usize vsize u0 v0 w h t ht hw hh hu hv
  simp only [hrow]
  have hrest : scanLayer (clearRect (rectMask u0 v0 w h t) u0 v0 w h) usize vsize (v0 + 1) =
      ([], clearRect (rectMask u0 v0 w h t) u0 v0 w h) :=
    scanLayer_all_air usize vsize vsize _ (v0 + 1) (by omega)
      (fun a b => clearRect_rectMask u0 v0 w h t a b)
  simp only [hrest]
  exact ⟨rfl, fun a b => clearRect_rectMask u0 v0 w h t a b⟩

theorem scanLayer_rect_from (usize vsize u0 v0 w h : ℕ) (t : VoxelTypeID)
    (ht : t ≠ AIR) (hw : 0 < w) (hh : 0 < h)
    (hu : u0 + w ≤ usize) (hv : v0 + h ≤ vsize) :
    ∀ (fuel v : ℕ), v0 - v ≤ fuel → v ≤ v0 →
      (scanLayer (rectMask u0 v0 w h t) usize vsize v).1 = [⟨u0, v0, w, h, t⟩] ∧
        ∀ a b, (scanLayer (rectMask u0 v0 w h t) usize vsize v).2 a b = AIR := by
  intro fuel
  induction fuel with
  | zero =>
    intro v hf hle
    have he : v = v0 := by omega
    rw [he]
    exact scanLayer_rect_at_v0 usize vsize u0 v0 w h t ht hw hh hu hv
  | succ fuel ih =>
    intro v hf hle
    by_cases he : v = v0
    · rw [he]
      exact scanLayer_rect_at_v0 usize vsize u0 v0 w h t ht hw hh hu hv
    · have hlt : v < v0 := by omega
      have hvv : v < vsize := by omega
      rw [scanLayer]
      rw [dif_pos hvv]
      have hrow : scanRow (rectMask u0 v0 w h t) usize vsize v 0 =
          ([], rectMask u0 v0 w h t) :=
        scanRow_all_air usize vsize v usize _ 0 (by omega)
          (fun c _ _ => by unfold rectMask; rw [if_neg (by omega)])
      simp only [hrow]
      exact ih (v + 1) (by omega) (by omega)

/-- Claim C9: on a layer mask whose non-empty cells form exactly one
axis-aligned rectangle of a single non-air block type, one pass of the
greedy merge emits exactly one quad, positioned and sized to cover exactly
that rectangle (the width is grown first along u, then the height along v),
and afterwards every mask cell is empty (the consumed cells were cleared;
all others already were empty). -/
theorem c9_greedy_single_rect (usize vsize u0 v0 w h : ℕ) (t : VoxelTypeID)
    (ht : t ≠ AIR) (hw : 0 < w) (hh : 0 < h)
    (hu : u0 + w ≤ usize) (hv : v0 + h ≤ vsize) :
    (greedy_mesh_layer (rectMask u0 v0 w h t) usize vsize).1 = [⟨u0, v0, w, h, t⟩] ∧
      ∀ a b, (greedy_mesh_layer (rectMask u0 v0 w h t) usize vsize).2 a b = AIR := by
  unfold greedy_mesh_layer
  exact scanLayer_rect_from usize vsize u0 v0 w h t ht hw hh hu hv v0 0 (by omega) (by omega)

theorem c9_greedy_single_rect_witness :
    ((1 : VoxelTypeID) ≠ AIR ∧ 0 < 4 ∧ 0 < 5 ∧ 3 + 4 ≤ 16 ∧ 2 + 5 ≤ 16) ∧
      (greedy_mesh_layer (rectMask 3 2 4 5 1) 16 16).1 = [⟨3, 2, 4, 5, 1⟩] :=
  ⟨⟨by decide, by decide, by decide, by decide, by decide⟩,
   (c9_greedy_single_rect 16 16 3 2 4 5 1 (by decide) (by decide) (by decide)
     (by decide) (by decide)).1⟩

end VoxelProj
